import Mathlib

/-!
# Verification of the Screen-Time-Tracker core (background.js / popup.js)

Shallow embedding of the session tracker, the aggregator and the reporter of
the Screen-Time-Tracker browser extension.

Modelling conventions:
* JavaScript objects used as string-keyed maps (`activityData`, `dailyData`,
  `dailyBreakdown`, `domains`, `domainStats`) are association lists
  `List (String × α)` in insertion order, with JS semantics: property read
  returns the first binding (`jget`), property write updates the existing
  binding in place or appends a fresh one at the end (`jset`), and `delete`
  removes the binding (`filter`).  JS object keys are unique, so the
  interesting theorems carry a `Nodup` hypothesis on the key list.
* Timestamps (`Date.now()`) are `Nat` epoch milliseconds, passed explicitly
  as a `now` parameter; elapsed-time subtraction on `Nat` truncates at 0,
  which agrees with the code because a negative JS duration also fails the
  `durationInSeconds < 1` resp. `< 24h` tests and leads to the same no-op.
* Date keys (`getDateKey`, a `YYYY-MM-DD` string produced by the platform
  `Date`/`toISOString`) are passed as explicit `String` parameters
  (`dateKey`, `cutoffKey`) instead of re-implementing the calendar; the code
  only ever compares them with string equality and the lexicographic `<`.
* `chrome.storage.local` is the `Store` structure; a `get`/mutate/`set`
  round trip is a pure function `Store → Store`.
-/

set_option autoImplicit false

namespace ScreenTime

/-- JS property read on an object used as a map: first binding wins
(keys are unique in an actual JS object). `none` models `undefined`. -/
def jget {α : Type} (m : List (String × α)) (k : String) : Option α :=
  match m with
  | [] => none
  | (k', v') :: rest => if k' = k then some v' else jget rest k

/-- JS property write: overwrite the existing binding in place, otherwise
append the new binding at the end (JS insertion order). -/
def jset {α : Type} (m : List (String × α)) (k : String) (v : α) :
    List (String × α) :=
  match m with
  | [] => [(k, v)]
  | (k', v') :: rest => if k' = k then (k, v) :: rest else (k', v') :: jset rest k v

/-- The key list of a JS-object model. -/
def keys {α : Type} (m : List (String × α)) : List String := m.map Prod.fst

/-- Sum of all values of a numeric JS-object model. -/
def sumVals (m : List (String × Nat)) : Nat := (m.map Prod.snd).sum

/-- JS truthiness of a nullable string (`null` and `""` are falsy). -/
def truthyStr (s : Option String) : Bool :=
  match s with
  | none => false
  | some str => str ≠ ""

/-- JS truthiness of a nullable number (`null` and `0` are falsy). -/
def truthyNat (n : Option Nat) : Bool :=
  match n with
  | none => false
  | some m => m ≠ 0

/-- JS `<` on strings: lexicographic comparison of code units (all strings
in this development are ASCII, where code units and scalar values agree). -/
def jsLtChars : List Char → List Char → Bool
  | [], [] => false
  | [], _ :: _ => true
  | _ :: _, [] => false
  | a :: as, b :: bs =>
    if a.toNat < b.toNat then true
    else if b.toNat < a.toNat then false
    else jsLtChars as bs

/-- JS `a < b` for strings. -/
def jsLT (a b : String) : Bool := jsLtChars a.data b.data

/-- JS `a <= b` for strings (`!(b < a)`; string comparison is total). -/
def jsLE (a b : String) : Bool := !jsLT b a

/-- One entry of `activityData` (per-domain lifetime stats),
field names as in the persisted schema of background.js. -/
structure DomainStat where
  totalTime : Nat
  visits : Nat
  lastVisit : Nat
  dailyBreakdown : List (String × Nat)
  deriving Repr, DecidableEq

/-- One entry of `dailyData` (per-day stats). -/
structure DayStat where
  totalTime : Nat
  domains : List (String × Nat)
  deriving Repr, DecidableEq

/-- The persisted `chrome.storage.local` document.  `lastCleanup = 0` also
models a missing key, matching the `result.lastCleanup || 0` read. -/
structure Store where
  activityData : List (String × DomainStat)
  dailyData : List (String × DayStat)
  lastCleanup : Nat
  deriving Repr, DecidableEq

/-- The ephemeral module-level state of the background service worker
(`currentTabId`, `currentDomain`, `sessionStartTime`, `isWindowFocused`). -/
structure SessionState where
  currentTabId : Option Nat
  currentDomain : Option String
  sessionStartTime : Option Nat
  isWindowFocused : Bool
  deriving Repr, DecidableEq

/-- Lines 66–85 of `saveCurrentSession`: the upserted `activityData[domain]`
object.  When the domain has no entry yet, it is first initialized
(`totalTime 0`, `visits 0`, `lastVisit now`, empty breakdown); then
`totalTime` and the day's breakdown grow by `durationInSeconds`, `visits` by
one, and `lastVisit` becomes `now`.  A falsy breakdown entry is reset to `0`
before the `+=`, which coincides with `getD 0`. -/
def upsertDomainStat (activityData : List (String × DomainStat))
    (domain : String) (durationInSeconds : Nat) (dateKey : String)
    (now : Nat) : DomainStat :=
  let ds0 : DomainStat :=
    (jget activityData domain).getD
      { totalTime := 0, visits := 0, lastVisit := now, dailyBreakdown := [] }
  let ds1 : DomainStat :=
    { ds0 with
      totalTime := ds0.totalTime + durationInSeconds
      visits := ds0.visits + 1
      lastVisit := now }
  { ds1 with
    dailyBreakdown :=
      jset ds1.dailyBreakdown dateKey
        ((jget ds1.dailyBreakdown dateKey).getD 0 + durationInSeconds) }

/-- Lines 87–99 of `saveCurrentSession`: the upserted `dailyData[dateKey]`
object (created zeroed when absent; `totalTime` and the domain's bucket grow
by `durationInSeconds`). -/
def upsertDayStat (dailyData : List (String × DayStat)) (domain : String)
    (durationInSeconds : Nat) (dateKey : String) : DayStat :=
  let dd0 : DayStat :=
    (jget dailyData dateKey).getD { totalTime := 0, domains := [] }
  let dd1 : DayStat := { dd0 with totalTime := dd0.totalTime + durationInSeconds }
  { dd1 with
    domains :=
      jset dd1.domains domain
        ((jget dd1.domains domain).getD 0 + durationInSeconds) }

/-- Lines 60–102 of `saveCurrentSession`: the aggregator step that folds a
closed session `(domain, durationInSeconds, dateKey)` into both persisted
maps.  `now` is the value of `Date.now()` during the call. -/
def recordSession (st : Store) (domain : String) (durationInSeconds : Nat)
    (dateKey : String) (now : Nat) : Store :=
  { st with
    activityData :=
      jset st.activityData domain
        (upsertDomainStat st.activityData domain durationInSeconds dateKey now)
    dailyData :=
      jset st.dailyData dateKey
        (upsertDayStat st.dailyData domain durationInSeconds dateKey) }

/-- `saveCurrentSession` (background.js lines 47–103).  `now` is `Date.now()`
and `dateKey = getDateKey(now)`.  The function reads the module-level session
variables but never assigns them, so the session state is an unchanged input;
only the store is returned. -/
def saveCurrentSession (s : SessionState) (st : Store) (now : Nat)
    (dateKey : String) : Store :=
  if !(truthyStr s.currentDomain) || !(truthyNat s.sessionStartTime)
      || !s.isWindowFocused then
    st
  else
    let sessionStart := s.sessionStartTime.getD 0
    let domain := s.currentDomain.getD ""
    let durationInSeconds := (now - sessionStart) / 1000
    -- Ignore very short sessions (less than 1 second)
    if durationInSeconds < 1 then st
    else recordSession st domain durationInSeconds dateKey now

/-- `cleanupOldData` (background.js lines 194–223).  `now` is `Date.now()`;
`cutoffKey` is `getDateKey(now − 90 days)` as computed by the platform
`Date` arithmetic (`setDate(getDate() − 90)` followed by `toISOString`),
taken as an input because the code only uses it for string comparison. -/
def cleanupOldData (st : Store) (now : Nat) (cutoffKey : String) : Store :=
  let lastCleanup := st.lastCleanup
  -- Only cleanup once per day
  if now - lastCleanup < 24 * 60 * 60 * 1000 then st
  else
    let dailyData := st.dailyData
    let removedCount := (dailyData.filter (fun p => jsLT p.1 cutoffKey)).length
    let newDailyData := dailyData.filter (fun p => !jsLT p.1 cutoffKey)
    if removedCount > 0 then
      { st with dailyData := newDailyData, lastCleanup := now }
    else st

/-! ## Domain resolution

`getDomainFromUrl` delegates to the platform's WHATWG URL parser
(`new URL(url).hostname`).  `urlHostname` models that parser for absolute
URLs: a string with no valid scheme fails to parse (the thrown `TypeError`
becomes `none`); a special scheme (`http`, `https`, `ws`, `wss`, `ftp`)
consumes any run of slashes and then requires a nonempty host, read up to
the next `/`, `\`, `?` or `#` with userinfo and port stripped; `file` allows
an empty host; any other scheme has a host only when the remainder starts
with `//` (so `chrome://newtab/` has host `newtab` while `about:blank` has
host `""`).  Percent-decoding, IDNA and forbidden-host-character checks are
not modelled; the date keys and URLs in this development are plain ASCII. -/

/-- ASCII letter test. -/
def isAsciiAlpha (c : Char) : Bool :=
  (('a' ≤ c) && (c ≤ 'z')) || (('A' ≤ c) && (c ≤ 'Z'))

/-- Characters allowed in a URL scheme after the first letter. -/
def isSchemeChar (c : Char) : Bool :=
  isAsciiAlpha c || c.isDigit || c = '+' || c = '-' || c = '.'

/-- ASCII lowercase of a character list. -/
def asciiLower (cs : List Char) : List Char :=
  cs.map (fun c => if ('A' ≤ c) && (c ≤ 'Z') then Char.ofNat (c.toNat + 32) else c)

/-- The WHATWG parser's input preprocessing: strip leading and trailing
C0-control-or-space characters, then remove every tab and newline. -/
def preprocessUrl (cs : List Char) : List Char :=
  (((cs.dropWhile fun c => c.toNat ≤ 32).reverse.dropWhile
      fun c => c.toNat ≤ 32).reverse).filter
    fun c => !(c = '\t' || c = '\n' || c = '\r')

/-- Split `scheme ':' rest`; `none` when the input has no valid scheme. -/
def schemeSplit (acc : List Char) : List Char → Option (List Char × List Char)
  | [] => none
  | c :: rest =>
    if c = ':' then
      if acc = [] then none else some (acc.reverse, rest)
    else if (if acc = [] then isAsciiAlpha c else isSchemeChar c) then
      schemeSplit (c :: acc) rest
    else none

/-- Drop the userinfo part (everything up to the last `@`) of an authority. -/
def dropUserinfo (auth : List Char) : List Char :=
  if auth.contains '@' then (auth.reverse.takeWhile (fun c => c ≠ '@')).reverse
  else auth

/-- Drop the port part (everything from the first `:`) of a host-port pair. -/
def dropPort (h : List Char) : List Char := h.takeWhile (fun c => c ≠ ':')

/-- The schemes the WHATWG standard calls special, minus `file`. -/
def specialSchemes : List (List Char) :=
  ["http".toList, "https".toList, "ws".toList, "wss".toList, "ftp".toList]

/-- A Windows drive letter (`C:` or `C|`) in host position of a `file` URL,
which the WHATWG parser reads as the start of the path instead of a host. -/
def windowsDrive (auth : List Char) : Bool :=
  match auth with
  | [c, s] => isAsciiAlpha c && (s = ':' || s = '|')
  | _ => false

/-- Model of `new URL(url).hostname` (see the section comment):
`none` models a thrown `TypeError`. -/
def urlHostname (url : String) : Option String :=
  match schemeSplit [] (preprocessUrl url.data) with
  | none => none
  | some (schemeCs, rest) =>
    let scheme := asciiLower schemeCs
    if scheme = "file".toList then
      -- `file` consumes exactly `//` before a host; a third slash or a
      -- Windows drive letter puts the parser in the path instead
      match rest with
      | '/' :: '/' :: rest2 =>
        let auth := rest2.takeWhile
          (fun c => !(c = '/' || c = '\\' || c = '?' || c = '#'))
        if windowsDrive auth then some ""
        else some (String.mk (asciiLower (dropPort (dropUserinfo auth))))
      | _ => some ""
    else if scheme ∈ specialSchemes then
      let afterSlashes := rest.dropWhile (fun c => c = '/' || c = '\\')
      let auth := afterSlashes.takeWhile
        (fun c => !(c = '/' || c = '\\' || c = '?' || c = '#'))
      let host := dropPort (dropUserinfo auth)
      if host = [] then none
      else some (String.mk (asciiLower host))
    else
      match rest with
      | '/' :: '/' :: rest2 =>
        let auth := rest2.takeWhile (fun c => !(c = '/' || c = '?' || c = '#'))
        some (String.mk (dropPort (dropUserinfo auth)))
      | _ => some ""

/-- `getDomainFromUrl` (background.js lines 31–38): `new URL(url).hostname`,
with the `TypeError` thrown on a malformed URL caught and turned into `null`
(`none`).  A missing `tab.url` is modelled by `""`, which also fails to
parse, exactly like the real `new URL(undefined)`. -/
def getDomainFromUrl (url : String) : Option String :=
  urlHostname url

/-! ## The session-tracker event machine -/

/-- `startTracking` (background.js lines 106–110). -/
def startTracking (s : SessionState) (tabId : Nat) (domain : String)
    (now : Nat) : SessionState :=
  { s with
    currentTabId := some tabId
    currentDomain := some domain
    sessionStartTime := some now }

/-- The external events driving the background worker.  Each event carries
the `Date.now()` value `now` observed during its handler and, where a flush
can happen, the matching `dateKey = getDateKey(now)`.  Tab lookups
(`chrome.tabs.get`, `chrome.tabs.query`) are oracles: `some (tabId, url)`
on success, `none` when the query returned nothing or threw. -/
inductive Event where
  | tabActivated (tab : Option (Nat × String)) (now : Nat) (dateKey : String)
  | tabUpdated (tabId : Nat) (changeUrl : Option String) (now : Nat) (dateKey : String)
  | focusLost (now : Nat) (dateKey : String)
  | focusGained (tab : Option (Nat × String)) (now : Nat) (dateKey : String)
  | alarmTick (now : Nat) (dateKey : String)
  | processStart (tab : Option (Nat × String)) (now : Nat)
  deriving Repr

/-- The whole mutable state of the background worker: the module-level
session variables plus the persisted store. -/
structure World where
  session : SessionState
  store : Store
  deriving Repr, DecidableEq

/-- The `Idle` reset of the three tracking variables, as written in the
`else` branches of the `onActivated` and `onUpdated` listeners. -/
def clearTracking (s : SessionState) : SessionState :=
  { s with currentTabId := none, currentDomain := none, sessionStartTime := none }

/-- One step of the background worker: the five event listeners of
background.js (lines 113–191) plus the startup query (lines 229–241). -/
def step (w : World) : Event → World
  | .tabActivated tab now dateKey =>
    let st := saveCurrentSession w.session w.store now dateKey
    match tab with
    | none => { w with store := st }
    | some (tabId, url) =>
      let domain := getDomainFromUrl url
      if truthyStr domain && w.session.isWindowFocused then
        { session := startTracking w.session tabId (domain.getD "") now, store := st }
      else
        { session := clearTracking w.session, store := st }
  | .tabUpdated tabId changeUrl now dateKey =>
    if truthyStr changeUrl && (some tabId == w.session.currentTabId) then
      let st := saveCurrentSession w.session w.store now dateKey
      let domain := getDomainFromUrl (changeUrl.getD "")
      if truthyStr domain && w.session.isWindowFocused then
        { session := startTracking w.session tabId (domain.getD "") now, store := st }
      else
        { session := clearTracking w.session, store := st }
    else w
  | .focusLost now dateKey =>
    let st := saveCurrentSession w.session w.store now dateKey
    { session := { w.session with isWindowFocused := false, sessionStartTime := none }
      store := st }
  | .focusGained tab now _ =>
    let s := { w.session with isWindowFocused := true }
    match tab with
    | none => { w with session := s }
    | some (tabId, url) =>
      let domain := getDomainFromUrl url
      if truthyStr domain then
        { w with session := startTracking s tabId (domain.getD "") now }
      else { w with session := s }
  | .alarmTick now dateKey =>
    let st := saveCurrentSession w.session w.store now dateKey
    if truthyStr w.session.currentDomain && w.session.isWindowFocused then
      { session := { w.session with sessionStartTime := some now }, store := st }
    else { session := w.session, store := st }
  | .processStart tab now =>
    match tab with
    | none => w
    | some (tabId, url) =>
      let domain := getDomainFromUrl url
      if truthyStr domain then
        { w with session := startTracking w.session tabId (domain.getD "") now }
      else w

/-- Run a finite event trace. -/
def run (w : World) (es : List Event) : World := es.foldl step w

/-- The worker state right after `initializeStorage` on a fresh install:
empty maps, `lastCleanup = now₀`, no session, window considered focused. -/
def initialWorld (now₀ : Nat) : World :=
  { session :=
      { currentTabId := none, currentDomain := none
        sessionStartTime := none, isWindowFocused := true }
    store := { activityData := [], dailyData := [], lastCleanup := now₀ } }

/-! ## The popup reporter (popup.js `processData`)

`startDate` and `today` are the range bounds the popup computes from the
selected range (`today` / `week` / `month`) with `getDateKey`; `now` is
`Date.now()`.  `Math.ceil` applied to the float quotient
`visits * (dailyBreakdown[date] / totalTime)` is modelled by the exact
rational ceiling `⌈visits · b / totalTime⌉ = (visits·b + totalTime − 1) / totalTime`;
double rounding of the two float operations is not modelled. -/

/-- The per-domain accumulator object of `processData` (`domainStats`). -/
structure RangeStat where
  time : Nat
  visits : Nat
  lastVisit : Nat
  deriving Repr, DecidableEq

/-- The object `processData` returns. -/
structure ProcessedData where
  totalTime : Nat
  totalVisits : Nat
  uniqueSites : Nat
  topSites : List (String × RangeStat)
  deriving Repr, DecidableEq

/-- `activityData[domain]?.lastVisit || Date.now()` (popup.js line 72). -/
def initLastVisit (activityData : List (String × DomainStat)) (domain : String)
    (now : Nat) : Nat :=
  match jget activityData domain with
  | some ds => if ds.lastVisit ≠ 0 then ds.lastVisit else now
  | none => now

/-- The body of the inner loop of `processData`'s first pass (popup.js
lines 65–78): fold one `(domain, timeForDay)` pair of a day in range into
`(domainStats, totalTime)`. -/
def addDayDomain (activityData : List (String × DomainStat)) (now : Nat)
    (acc : List (String × RangeStat) × Nat) (domain : String)
    (timeForDay : Nat) : List (String × RangeStat) × Nat :=
  let cur : RangeStat :=
    (jget acc.1 domain).getD
      { time := 0, visits := 0, lastVisit := initLastVisit activityData domain now }
  (jset acc.1 domain { cur with time := cur.time + timeForDay }, acc.2 + timeForDay)

/-- The first pass of `processData` (popup.js lines 61–80): walk `dailyData`
in insertion order, and fold every day inside `[startDate, today]` into
`(domainStats, totalTime)`. -/
def collectRange (activityData : List (String × DomainStat))
    (startDate today : String) (now : Nat) :
    List (String × DayStat) → List (String × RangeStat) × Nat →
    List (String × RangeStat) × Nat
  | [], acc => acc
  | (dateKey, dayData) :: rest, acc =>
    let acc' :=
      if jsLE startDate dateKey && jsLE dateKey today then
        dayData.domains.foldl (fun a p => addDayDomain activityData now a p.1 p.2) acc
      else acc
    collectRange activityData startDate today now rest acc'

/-- Rounded-up scaling `Math.ceil (a / b)` on the exact rational value. -/
def ceilDiv (a b : Nat) : Nat := (a + b - 1) / b

/-- `visitsInRange` for one domain (popup.js lines 85–99): sum over the
dates of `dailyBreakdown` lying in `[startDate, today]` with a positive
value of the proportionally scaled, rounded-up lifetime visit count. -/
def visitsInRange (startDate today : String) (ds : DomainStat) : Nat :=
  ds.dailyBreakdown.foldl
    (fun acc p =>
      if jsLE startDate p.1 && jsLE p.1 today && decide (0 < p.2) then
        acc + ceilDiv (ds.visits * p.2) ds.totalTime
      else acc) 0

/-- The second pass of `processData` (popup.js lines 83–105): walk
`activityData`, and for each domain already present in `domainStats` store
its `visitsInRange` and add it to `totalVisits`. -/
def assignVisits (startDate today : String) :
    List (String × DomainStat) → List (String × RangeStat) × Nat →
    List (String × RangeStat) × Nat
  | [], acc => acc
  | (domain, domainData) :: rest, acc =>
    let vr := visitsInRange startDate today domainData
    match jget acc.1 domain with
    | some cur =>
      assignVisits startDate today rest
        (jset acc.1 domain { cur with visits := vr }, acc.2 + vr)
    | none => assignVisits startDate today rest acc

/-- The comparator `(a, b) => b[1].time - a[1].time`: `a` may stay before
`b` exactly when `a`'s time is at least `b`'s. -/
def byTimeDesc (a b : String × RangeStat) : Prop := b.2.time ≤ a.2.time

instance : DecidableRel byTimeDesc := fun _ b => Nat.decLe b.2.time _

/-- The stable descending sort `.sort((a, b) => b[1].time - a[1].time)`. -/
def sortByTimeDesc (l : List (String × RangeStat)) : List (String × RangeStat) :=
  List.insertionSort byTimeDesc l

/-- `processData` (popup.js lines 40–118). -/
def processData (activityData : List (String × DomainStat))
    (dailyData : List (String × DayStat)) (startDate today : String)
    (now : Nat) : ProcessedData :=
  let acc1 := collectRange activityData startDate today now dailyData ([], 0)
  let acc2 := assignVisits startDate today activityData (acc1.1, 0)
  let sortedDomains := (sortByTimeDesc acc2.1).take 10
  { totalTime := acc1.2
    totalVisits := acc2.2
    uniqueSites := sortedDomains.length
    topSites := sortedDomains }

/-! ## Derived notions used by the statements -/

/-- The flush viewed as a transformer of the whole worker state: the body of
`saveCurrentSession` assigns none of the module-level session variables, so
the session component passes through unchanged. -/
def flushWorld (w : World) (now : Nat) (dateKey : String) : World :=
  { session := w.session, store := saveCurrentSession w.session w.store now dateKey }

/-- Lifetime `totalTime` recorded for a domain (`0` when the domain has no
`activityData` entry). -/
def lifetimeSeconds (st : Store) (domain : String) : Nat :=
  ((jget st.activityData domain).map DomainStat.totalTime).getD 0

/-- Per-domain sum invariant: every `activityData` entry has
`sum(dailyBreakdown) = totalTime`. -/
def domainInv (st : Store) : Prop :=
  ∀ p ∈ st.activityData, sumVals p.2.dailyBreakdown = p.2.totalTime

/-- Per-day sum invariant: every `dailyData` entry has
`sum(domains) = totalTime`. -/
def dayInv (st : Store) : Prop :=
  ∀ p ∈ st.dailyData, sumVals p.2.domains = p.2.totalTime

/-- `DomainStat[dom].dailyBreakdown[date]`, when present. -/
def breakdownAt (st : Store) (dom date : String) : Option Nat :=
  (jget st.activityData dom).bind fun ds => jget ds.dailyBreakdown date

/-- `DayStat[date].domainSeconds[dom]`, when present. -/
def daySecondsAt (st : Store) (dom date : String) : Option Nat :=
  (jget st.dailyData date).bind fun dd => jget dd.domains dom

/-- Cross invariant: the two nested maps agree on every domain/date pair
(the claim's "present in either map implies equal" is the same as equality
of the two optional values, both being absent when the pair is in neither). -/
def crossInv (st : Store) : Prop :=
  ∀ dom date, breakdownAt st dom date = daySecondsAt st dom date

/-- Cross invariant restricted to date keys at or after a cutoff. -/
def crossInvGe (cutoffKey : String) (st : Store) : Prop :=
  ∀ dom date, jsLT date cutoffKey = false →
    breakdownAt st dom date = daySecondsAt st dom date

/-- The nested invariant of `SessionState` that actually holds on every
reachable worker state: a set session timer implies a (truthy) domain. -/
def sessionInvariant (s : SessionState) : Prop :=
  s.sessionStartTime.isSome → truthyStr s.currentDomain = true

/-- A finite alternating sequence of opens and closes of one domain: for
each `(openT, closeT, dateKey)` the worker enters `Tracking` via
`startTracking` at `openT` and flushes via `saveCurrentSession` at `closeT`
with date key `dateKey`, the window staying focused throughout. -/
def runOpensCloses (tabId : Nat) (domain : String) (st : Store) :
    List (Nat × Nat × String) → Store
  | [] => st
  | (openT, closeT, dk) :: rest =>
    runOpensCloses tabId domain
      (saveCurrentSession
        (startTracking
          { currentTabId := none, currentDomain := none
            sessionStartTime := none, isWindowFocused := true }
          tabId domain openT)
        st closeT dk) rest

/-- The seconds an interval contributes once recorded: its whole-second
duration, or nothing when that is below one second. -/
def intervalContribution (p : Nat × Nat × String) : Nat :=
  let s := (p.2.1 - p.1) / 1000
  if s < 1 then 0 else s

/-- The visit-count estimate the spec states for one domain over a range:
the sum, over the in-range dates of the domain's `dailyBreakdown` with a
positive value, of the lifetime `visits` scaled by that date's fraction of
the lifetime `totalTime`, rounded up per date bucket (zero for a domain
with no `activityData` entry). -/
def estVisits (activityData : List (String × DomainStat))
    (startDate today : String) (dom : String) : Nat :=
  visitsInRange startDate today
    ((jget activityData dom).getD
      { totalTime := 0, visits := 0, lastVisit := 0, dailyBreakdown := [] })

/-! ## Lemmas about the JS-object model -/

theorem jget_jset_self {α : Type} (m : List (String × α)) (k : String) (v : α) :
    jget (jset m k v) k = some v := by
  induction m with
  | nil => simp [jset, jget]
  | cons hd tl ih =>
    obtain ⟨k', v'⟩ := hd
    by_cases h : k' = k
    · simp [jset, jget, h]
    · simp [jset, jget, h, ih]

theorem jget_jset_ne {α : Type} (m : List (String × α)) (k k' : String) (v : α)
    (h : k' ≠ k) : jget (jset m k v) k' = jget m k' := by
  induction m with
  | nil =>
    simp [jset, jget]
    exact fun hh => h hh.symm
  | cons hd tl ih =>
    obtain ⟨k₀, v₀⟩ := hd
    by_cases h₀ : k₀ = k
    · subst h₀
      have hne : ¬ k₀ = k' := fun hh => h hh.symm
      simp [jset, jget, hne]
    · by_cases h₁ : k₀ = k'
      · simp [jset, jget, h₀, h₁, h]
      · simp [jset, jget, h₀, h₁, ih]

theorem mem_jset {α : Type} {m : List (String × α)} {k : String} {v : α}
    {p : String × α} (hp : p ∈ jset m k v) : p = (k, v) ∨ p ∈ m := by
  induction m with
  | nil => simpa [jset] using hp
  | cons hd tl ih =>
    obtain ⟨k₀, v₀⟩ := hd
    by_cases h₀ : k₀ = k
    · rcases (by simpa [jset, h₀] using hp : p = (k, v) ∨ p ∈ tl) with h | h
      · exact Or.inl h
      · exact Or.inr (List.mem_cons_of_mem _ h)
    · rcases (by simpa [jset, h₀] using hp : p = (k₀, v₀) ∨ p ∈ jset tl k v) with h | h
      · exact Or.inr (by simp [h])
      · rcases ih h with h' | h'
        · exact Or.inl h'
        · exact Or.inr (List.mem_cons_of_mem _ h')

theorem jget_mem {α : Type} {m : List (String × α)} {k : String} {v : α}
    (h : jget m k = some v) : (k, v) ∈ m := by
  induction m with
  | nil => simp [jget] at h
  | cons hd tl ih =>
    obtain ⟨k₀, v₀⟩ := hd
    by_cases h₀ : k₀ = k
    · subst h₀
      have : v₀ = v := by simpa [jget] using h
      simp [this]
    · exact List.mem_cons_of_mem _ (ih (by simpa [jget, h₀] using h))

theorem sumVals_jset_some {m : List (String × Nat)} {k : String} {old : Nat}
    (v : Nat) (h : jget m k = some old) :
    sumVals (jset m k v) + old = sumVals m + v := by
  induction m with
  | nil => simp [jget] at h
  | cons hd tl ih =>
    obtain ⟨k₀, v₀⟩ := hd
    by_cases h₀ : k₀ = k
    · subst h₀
      have : v₀ = old := by simpa [jget] using h
      subst this
      simp [jset, sumVals]
      omega
    · have h' : jget tl k = some old := by simpa [jget, h₀] using h
      have := ih h'
      simp [jset, sumVals, h₀] at this ⊢
      omega

theorem sumVals_jset_none {m : List (String × Nat)} {k : String}
    (v : Nat) (h : jget m k = none) :
    sumVals (jset m k v) = sumVals m + v := by
  induction m with
  | nil => simp [jset, sumVals]
  | cons hd tl ih =>
    obtain ⟨k₀, v₀⟩ := hd
    by_cases h₀ : k₀ = k
    · simp [jget, h₀] at h
    · have h' : jget tl k = none := by simpa [jget, h₀] using h
      have := ih h'
      simp [jset, sumVals, h₀] at this ⊢
      omega

theorem jget_eq_none_of_not_mem_keys {α : Type} {m : List (String × α)}
    {k : String} (h : k ∉ keys m) : jget m k = none := by
  induction m with
  | nil => rfl
  | cons hd tl ih =>
    obtain ⟨k₀, v₀⟩ := hd
    have hne : ¬ k₀ = k := fun hh =>
      h (show k ∈ k₀ :: keys tl from hh ▸ List.mem_cons_self _ _)
    have hk : k ∉ keys tl := fun hh =>
      h (show k ∈ k₀ :: keys tl from List.mem_cons_of_mem _ hh)
    simp [jget, hne, ih hk]

theorem jget_of_mem_nodup {α : Type} {m : List (String × α)} {p : String × α}
    (hnd : (keys m).Nodup) (hp : p ∈ m) : jget m p.1 = some p.2 := by
  induction m with
  | nil => simp at hp
  | cons hd tl ih =>
    obtain ⟨k₀, v₀⟩ := hd
    have hpair := List.nodup_cons.mp (show (k₀ :: keys tl).Nodup from hnd)
    have hnd' : (keys tl).Nodup := hpair.2
    rcases List.mem_cons.mp hp with h | h
    · subst h
      simp [jget]
    · have hk₀ : k₀ ∉ keys tl := hpair.1
      have hne : k₀ ≠ p.1 := by
        intro hh
        exact hk₀ (hh ▸ (List.mem_map.mpr ⟨p, h, rfl⟩))
      simp [jget, hne, ih hnd' h]

theorem keys_jset_nodup {α : Type} {m : List (String × α)} (k : String) (v : α)
    (hnd : (keys m).Nodup) : (keys (jset m k v)).Nodup := by
  induction m with
  | nil => simp [jset, keys]
  | cons hd tl ih =>
    obtain ⟨k₀, v₀⟩ := hd
    have hpair := List.nodup_cons.mp (show (k₀ :: keys tl).Nodup from hnd)
    have hk₀ : k₀ ∉ keys tl := hpair.1
    have hnd' : (keys tl).Nodup := hpair.2
    by_cases h₀ : k₀ = k
    · subst h₀
      have hrw : jset ((k₀, v₀) :: tl) k₀ v = (k₀, v) :: tl := by simp [jset]
      rw [hrw]
      exact List.nodup_cons.mpr ⟨hk₀, hnd'⟩
    · have hmem : k₀ ∉ keys (jset tl k v) := by
        intro hh
        rcases List.mem_map.mp hh with ⟨p, hp, hpk⟩
        rcases mem_jset hp with h' | h'
        · exact h₀ (by rw [← hpk, h'])
        · exact hk₀ (hpk ▸ List.mem_map.mpr ⟨p, h', rfl⟩)
      have hrw : jset ((k₀, v₀) :: tl) k v = (k₀, v₀) :: jset tl k v := by
        simp [jset, h₀]
      rw [hrw]
      exact List.nodup_cons.mpr ⟨hmem, ih hnd'⟩

theorem jget_filter_keep {α : Type} (m : List (String × α)) (pred : String → Bool)
    (k : String) (h : pred k = true) :
    jget (m.filter fun p => pred p.1) k = jget m k := by
  induction m with
  | nil => rfl
  | cons hd tl ih =>
    obtain ⟨k₀, v₀⟩ := hd
    by_cases h₀ : k₀ = k
    · subst h₀
      simp [List.filter, h, jget, ih]
    · cases hp : pred k₀ <;> simp [List.filter, hp, jget, h₀, ih]

theorem jget_filter_drop {α : Type} (m : List (String × α)) (pred : String → Bool)
    (k : String) (h : pred k = false) :
    jget (m.filter fun p => pred p.1) k = none := by
  induction m with
  | nil => rfl
  | cons hd tl ih =>
    obtain ⟨k₀, v₀⟩ := hd
    by_cases h₀ : k₀ = k
    · subst h₀
      simp [List.filter, h, ih]
    · cases hp : pred k₀ <;> simp [List.filter, hp, jget, h₀, ih]

/-! ## Flush helper lemmas -/

theorem save_noop_of_domain (s : SessionState) (st : Store) (now : Nat)
    (dk : String) (h : truthyStr s.currentDomain = false) :
    saveCurrentSession s st now dk = st := by
  simp [saveCurrentSession, h]

theorem save_noop_of_timer (s : SessionState) (st : Store) (now : Nat)
    (dk : String) (h : truthyNat s.sessionStartTime = false) :
    saveCurrentSession s st now dk = st := by
  simp [saveCurrentSession, h]

theorem save_noop_of_unfocused (s : SessionState) (st : Store) (now : Nat)
    (dk : String) (h : s.isWindowFocused = false) :
    saveCurrentSession s st now dk = st := by
  simp [saveCurrentSession, h]

theorem save_noop_of_short (s : SessionState) (st : Store) (now : Nat)
    (dk : String) (h : (now - s.sessionStartTime.getD 0) / 1000 < 1) :
    saveCurrentSession s st now dk = st := by
  unfold saveCurrentSession
  split
  · rfl
  · simp [h]

theorem save_records_eq (s : SessionState) (st : Store) (now : Nat) (dk : String)
    (hd : truthyStr s.currentDomain = true)
    (ht : truthyNat s.sessionStartTime = true)
    (hf : s.isWindowFocused = true)
    (hdur : 1 ≤ (now - s.sessionStartTime.getD 0) / 1000) :
    saveCurrentSession s st now dk =
      recordSession st (s.currentDomain.getD "")
        ((now - s.sessionStartTime.getD 0) / 1000) dk now := by
  have : ¬ (now - s.sessionStartTime.getD 0) / 1000 < 1 := by omega
  simp [saveCurrentSession, hd, ht, hf, this]

theorem step_store_of_no_timer (w : World) (e : Event)
    (h : truthyNat w.session.sessionStartTime = false) :
    (step w e).store = w.store := by
  have hsave : ∀ now dk, saveCurrentSession w.session w.store now dk = w.store :=
    fun now dk => save_noop_of_timer _ _ _ _ h
  cases e with
  | tabActivated tab now dk =>
    cases tab with
    | none => simp [step, hsave]
    | some t =>
      obtain ⟨tabId, url⟩ := t
      by_cases hc : truthyStr (getDomainFromUrl url) && w.session.isWindowFocused
      · simp [step, hsave, hc]
      · simp [step, hsave, hc]
  | tabUpdated tabId changeUrl now dk =>
    by_cases hg : truthyStr changeUrl && (some tabId == w.session.currentTabId)
    · by_cases hc : truthyStr (getDomainFromUrl (changeUrl.getD "")) && w.session.isWindowFocused
      · simp [step, hsave, hg, hc]
      · simp [step, hsave, hg, hc]
    · simp [step, hg]
  | focusLost now dk => simp [step, hsave]
  | focusGained tab now dk =>
    cases tab with
    | none => simp [step]
    | some t =>
      obtain ⟨tabId, url⟩ := t
      by_cases hc : truthyStr (getDomainFromUrl url)
      · simp [step, hc]
      · simp [step, hc]
  | alarmTick now dk =>
    by_cases hc : truthyStr w.session.currentDomain && w.session.isWindowFocused
    · simp [step, hsave, hc]
    · simp [step, hsave, hc]
  | processStart tab now =>
    cases tab with
    | none => simp [step]
    | some t =>
      obtain ⟨tabId, url⟩ := t
      by_cases hc : truthyStr (getDomainFromUrl url)
      · simp [step, hc]
      · simp [step, hc]

/-! ## Claim theorems -/

/-- C1 (counterexample): with the session `(tab 1, "a.com", startedAt 1000 ms,
focused)` and an empty store, flushing at `now = 6000` records 5 seconds into
the persisted store — yet `currentDomain` and `sessionStartTime` remain set,
so the flush does not clear the session state as the claim says. -/
theorem c1_counterexample :
    lifetimeSeconds
      (flushWorld
        { session :=
            { currentTabId := some 1, currentDomain := some "a.com"
              sessionStartTime := some 1000, isWindowFocused := true }
          store := { activityData := [], dailyData := [], lastCleanup := 0 } }
        6000 "2024-01-02").store "a.com" = 5 ∧
    (flushWorld
        { session :=
            { currentTabId := some 1, currentDomain := some "a.com"
              sessionStartTime := some 1000, isWindowFocused := true }
          store := { activityData := [], dailyData := [], lastCleanup := 0 } }
        6000 "2024-01-02").session.currentDomain = some "a.com" ∧
    (flushWorld
        { session :=
            { currentTabId := some 1, currentDomain := some "a.com"
              sessionStartTime := some 1000, isWindowFocused := true }
          store := { activityData := [], dailyData := [], lastCleanup := 0 } }
        6000 "2024-01-02").session.sessionStartTime = some 1000 := by
  decide

/-- C1 (amended): a flush with an unfocused window, an unset (or falsy)
domain or timer, or an elapsed time below one whole second leaves the store
untouched and raises no error; otherwise it records
`(domain, ⌊elapsed⌋ seconds, dateKey)` into the persisted store via the
aggregator — and in every case it leaves the session state unchanged
(the callers, not the flush, reset the session variables). -/
theorem c1_flush_contract (s : SessionState) (st : Store) (now : Nat)
    (dateKey : String) :
    (flushWorld { session := s, store := st } now dateKey).session = s ∧
    ((truthyStr s.currentDomain = false ∨ truthyNat s.sessionStartTime = false ∨
      s.isWindowFocused = false ∨ (now - s.sessionStartTime.getD 0) / 1000 < 1) →
      saveCurrentSession s st now dateKey = st) ∧
    (truthyStr s.currentDomain = true → truthyNat s.sessionStartTime = true →
      s.isWindowFocused = true → 1 ≤ (now - s.sessionStartTime.getD 0) / 1000 →
      saveCurrentSession s st now dateKey =
        recordSession st (s.currentDomain.getD "")
          ((now - s.sessionStartTime.getD 0) / 1000) dateKey now) := by
  refine ⟨rfl, ?_, save_records_eq s st now dateKey⟩
  rintro (h | h | h | h)
  · exact save_noop_of_domain s st now dateKey h
  · exact save_noop_of_timer s st now dateKey h
  · exact save_noop_of_unfocused s st now dateKey h
  · exact save_noop_of_short s st now dateKey h

/-- Witness for `c1_flush_contract` at a concrete focused 5-second session
and at a concrete unfocused one. -/
theorem c1_flush_contract_witness :
    saveCurrentSession
      { currentTabId := some 1, currentDomain := some "a.com"
        sessionStartTime := some 1000, isWindowFocused := true }
      { activityData := [], dailyData := [], lastCleanup := 0 } 6000 "2024-01-02" =
      recordSession { activityData := [], dailyData := [], lastCleanup := 0 }
        "a.com" 5 "2024-01-02" 6000 ∧
    saveCurrentSession
      { currentTabId := some 1, currentDomain := some "a.com"
        sessionStartTime := some 1000, isWindowFocused := false }
      { activityData := [], dailyData := [], lastCleanup := 0 } 6000 "2024-01-02" =
      { activityData := [], dailyData := [], lastCleanup := 0 } := by
  constructor
  · exact (c1_flush_contract
      { currentTabId := some 1, currentDomain := some "a.com"
        sessionStartTime := some 1000, isWindowFocused := true }
      { activityData := [], dailyData := [], lastCleanup := 0 } 6000
      "2024-01-02").2.2 (by decide) (by decide) rfl (by decide)
  · exact (c1_flush_contract
      { currentTabId := some 1, currentDomain := some "a.com"
        sessionStartTime := some 1000, isWindowFocused := false }
      { activityData := [], dailyData := [], lastCleanup := 0 } 6000
      "2024-01-02").2.1 (Or.inr (Or.inr (Or.inl rfl)))

/-- C2 (counterexample): the flush does not clear the session state, so
calling `saveCurrentSession` twice on the same session state (no intervening
open) records the same elapsed interval twice: 5 seconds become 10. -/
theorem c2_counterexample :
    lifetimeSeconds
      (saveCurrentSession
        { currentTabId := some 1, currentDomain := some "a.com"
          sessionStartTime := some 1000, isWindowFocused := true }
        { activityData := [], dailyData := [], lastCleanup := 0 }
        6000 "2024-01-02") "a.com" = 5 ∧
    lifetimeSeconds
      (saveCurrentSession
        { currentTabId := some 1, currentDomain := some "a.com"
          sessionStartTime := some 1000, isWindowFocused := true }
        (saveCurrentSession
          { currentTabId := some 1, currentDomain := some "a.com"
            sessionStartTime := some 1000, isWindowFocused := true }
          { activityData := [], dailyData := [], lastCleanup := 0 }
          6000 "2024-01-02")
        6000 "2024-01-02") "a.com" = 10 := by
  decide

/-- C2 (amended): the raw flush function double-counts when repeated, but
every tracking-stop event nulls the session timer right after its flush, so
after a window-defocus close any further close event (another defocus, a
periodic tick, or a tab activation) performs no persisted mutation. -/
theorem c2_close_close_noop (w : World) (now₁ : Nat) (dk₁ : String)
    (e : Event) :
    (step (step w (.focusLost now₁ dk₁)) e).store =
      (step w (.focusLost now₁ dk₁)).store := by
  apply step_store_of_no_timer
  rfl

/-- C3 (counterexample): with `lastCleanup = 0` the 24-hour gate passes at
`now = 10¹²`, but the only `dailyData` entry is newer than the cutoff, so
nothing is removed — and the code then skips the write entirely, leaving
`lastCleanup` at `0` instead of updating it to `now` as the claim states. -/
theorem c3_counterexample :
    cleanupOldData
      { activityData := []
        dailyData := [("2025-09-01", { totalTime := 5, domains := [("a.com", 5)] })]
        lastCleanup := 0 }
      1000000000000 "2020-01-01" =
      { activityData := []
        dailyData := [("2025-09-01", { totalTime := 5, domains := [("a.com", 5)] })]
        lastCleanup := 0 } ∧
    ¬ 1000000000000 - (0 : Nat) < 24 * 60 * 60 * 1000 := by
  constructor
  · decide
  · decide

/-- A sweep write happens exactly when at least one entry is below the
cutoff: the length of the kept-entry filter is positive iff a member
qualifies. -/
theorem cleanup_removed_pos {st : Store} {cutoffKey : String}
    {p : String × DayStat} (hp : p ∈ st.dailyData)
    (hlt : jsLT p.1 cutoffKey = true) :
    0 < (st.dailyData.filter fun q => jsLT q.1 cutoffKey).length := by
  apply List.length_pos.mpr
  intro hnil
  have hmem : p ∈ st.dailyData.filter fun q => jsLT q.1 cutoffKey :=
    List.mem_filter.mpr ⟨hp, hlt⟩
  simp [hnil] at hmem

/-- C3 (amended): the retention sweep is a no-op when less than 24 hours
have elapsed since `lastCleanup`; otherwise it removes exactly the
`dailyData` entries whose date key is lexicographically below the cutoff and
sets `lastCleanup` to `now` — but only when at least one entry was removed;
when the gate passes and no entry qualifies, nothing (including
`lastCleanup`) is written. -/
theorem c3_retention_contract (st : Store) (now : Nat) (cutoffKey : String) :
    (now - st.lastCleanup < 24 * 60 * 60 * 1000 →
      cleanupOldData st now cutoffKey = st) ∧
    (¬ now - st.lastCleanup < 24 * 60 * 60 * 1000 →
      ((∃ p ∈ st.dailyData, jsLT p.1 cutoffKey = true) →
        (cleanupOldData st now cutoffKey).activityData = st.activityData ∧
        (cleanupOldData st now cutoffKey).lastCleanup = now ∧
        ∀ k, jget (cleanupOldData st now cutoffKey).dailyData k =
          if jsLT k cutoffKey then none else jget st.dailyData k) ∧
      ((∀ p ∈ st.dailyData, jsLT p.1 cutoffKey = false) →
        cleanupOldData st now cutoffKey = st)) := by
  constructor
  · intro hgate
    simp [cleanupOldData, hgate]
  · intro hgate
    constructor
    · rintro ⟨p, hp, hlt⟩
      have hpos := cleanup_removed_pos hp hlt
      refine ⟨?_, ?_, ?_⟩
      · simp [cleanupOldData, hgate, hpos]
      · simp [cleanupOldData, hgate, hpos]
      · intro k
        have hdaily : (cleanupOldData st now cutoffKey).dailyData =
            st.dailyData.filter fun q => !jsLT q.1 cutoffKey := by
          simp [cleanupOldData, hgate, hpos]
        rw [hdaily]
        cases hk : jsLT k cutoffKey with
        | true =>
          rw [jget_filter_drop st.dailyData (fun s => !jsLT s cutoffKey) k
            (by simp [hk])]
          simp
        | false =>
          rw [jget_filter_keep st.dailyData (fun s => !jsLT s cutoffKey) k
            (by simp [hk])]
          simp
    · intro hall
      have hzero : (st.dailyData.filter fun q => jsLT q.1 cutoffKey) = [] :=
        List.filter_eq_nil_iff.mpr fun p hp => by simp [hall p hp]
      simp [cleanupOldData, hgate, hzero]

/-- Witness for `c3_retention_contract`: a store whose single entry is 95
days old with `lastCleanup` 25 hours in the past is swept, the entry is
removed and `lastCleanup` becomes `now`. -/
theorem c3_retention_contract_witness :
    (cleanupOldData
      { activityData := []
        dailyData := [("2025-07-08", { totalTime := 5, domains := [("a.com", 5)] })]
        lastCleanup := 0 }
      90000000 "2025-07-13").lastCleanup = 90000000 := by
  have h := ((c3_retention_contract
    { activityData := []
      dailyData := [("2025-07-08", { totalTime := 5, domains := [("a.com", 5)] })]
      lastCleanup := 0 }
    90000000 "2025-07-13").2 (by decide)).1
    ⟨("2025-07-08", { totalTime := 5, domains := [("a.com", 5)] }),
      by decide, by decide⟩
  exact h.2.1

/-! ## Session-state invariant (C4) -/

theorem and_true_left {a b : Bool} (h : (a && b) = true) : a = true := by
  cases a with
  | false => simp at h
  | true => rfl

theorem truthyStr_some_getD {d : Option String} (h : truthyStr d = true) :
    truthyStr (some (d.getD "")) = true := by
  cases d with
  | none => simp [truthyStr] at h
  | some s => simpa [truthyStr] using h

theorem sessionInvariant_startTracking (s : SessionState) (tabId : Nat)
    (domain : String) (now : Nat) (h : truthyStr (some domain) = true) :
    sessionInvariant (startTracking s tabId domain now) :=
  fun _ => h

theorem sessionInvariant_clear (s : SessionState) :
    sessionInvariant (clearTracking s) := by
  intro hh
  simp [clearTracking] at hh

theorem sessionInvariant_step (w : World) (e : Event)
    (h : sessionInvariant w.session) : sessionInvariant (step w e).session := by
  cases e with
  | tabActivated tab now dk =>
    cases tab with
    | none => exact h
    | some t =>
      obtain ⟨tabId, url⟩ := t
      simp only [step]
      split
      · next hc =>
        exact sessionInvariant_startTracking _ _ _ _
          (truthyStr_some_getD (and_true_left hc))
      · next hc => exact sessionInvariant_clear _
  | tabUpdated tabId changeUrl now dk =>
    simp only [step]
    split
    · split
      · next hc =>
        exact sessionInvariant_startTracking _ _ _ _
          (truthyStr_some_getD (and_true_left hc))
      · next hc => exact sessionInvariant_clear _
    · exact h
  | focusLost now dk =>
    intro hh
    simp [step] at hh
  | focusGained tab now dk =>
    cases tab with
    | none => exact fun hh => h hh
    | some t =>
      obtain ⟨tabId, url⟩ := t
      simp only [step]
      split
      · next hc => exact sessionInvariant_startTracking _ _ _ _ (truthyStr_some_getD hc)
      · exact fun hh => h hh
  | alarmTick now dk =>
    simp only [step]
    split
    · next hc => exact fun _ => (and_true_left hc)
    · exact fun hh => h hh
  | processStart tab now =>
    cases tab with
    | none => exact h
    | some t =>
      obtain ⟨tabId, url⟩ := t
      simp only [step]
      split
      · next hc => exact sessionInvariant_startTracking _ _ _ _ (truthyStr_some_getD hc)
      · exact h

theorem sessionInvariant_run (w : World) (es : List Event)
    (h : sessionInvariant w.session) : sessionInvariant (run w es).session := by
  induction es generalizing w with
  | nil => exact h
  | cons e rest ih => exact ih _ (sessionInvariant_step w e h)

/-- C4 (counterexample): start tracking `a.com`, then let the window lose
focus.  The focus-lost listener nulls only `sessionStartTime`; it leaves
`currentDomain` set — so the two variables are not "both set or both unset
together" in every reachable state. -/
theorem c4_counterexample :
    (run (initialWorld 0)
      [.processStart (some (1, "https://a.com")) 5,
       .focusLost 10 "1970-01-01"]).session.currentDomain = some "a.com" ∧
    (run (initialWorld 0)
      [.processStart (some (1, "https://a.com")) 5,
       .focusLost 10 "1970-01-01"]).session.sessionStartTime = none := by
  decide

/-- C4 (amended): in every state reachable by any event sequence from the
initial worker state, a set `sessionStartTime` implies a set (truthy)
`currentDomain`; the converse direction fails (see the counterexample:
after a focus loss the domain stays set while the timer is unset). -/
theorem c4_half_invariant (now₀ : Nat) (es : List Event) :
    sessionInvariant (run (initialWorld now₀) es).session :=
  sessionInvariant_run _ _ (by intro hh; simp [initialWorld] at hh)

/-- Witness for `c4_half_invariant`: after a process-start that resolves
`https://a.com` the timer is set, and the invariant yields a truthy domain. -/
theorem c4_half_invariant_witness :
    truthyStr ((run (initialWorld 0)
      [.processStart (some (1, "https://a.com")) 5]).session.currentDomain) = true :=
  c4_half_invariant 0 [.processStart (some (1, "https://a.com")) 5] (by decide)

/-! ## Store invariants (C5) -/

theorem sumVals_jset_add (m : List (String × Nat)) (k : String) (s : Nat) :
    sumVals (jset m k ((jget m k).getD 0 + s)) = sumVals m + s := by
  cases h : jget m k with
  | none =>
    simpa using sumVals_jset_none (0 + s) h
  | some old =>
    have h2 := sumVals_jset_some (old + s) h
    simp only [Option.getD_some]
    omega

theorem upsertDomainStat_sum (A : List (String × DomainStat)) (d : String)
    (s : Nat) (dk : String) (now : Nat)
    (h : sumVals (((jget A d).getD
      { totalTime := 0, visits := 0, lastVisit := now,
        dailyBreakdown := [] }).dailyBreakdown) =
      ((jget A d).getD
        { totalTime := 0, visits := 0, lastVisit := now,
          dailyBreakdown := [] }).totalTime) :
    sumVals (upsertDomainStat A d s dk now).dailyBreakdown =
      (upsertDomainStat A d s dk now).totalTime := by
  show sumVals (jset _ dk _) = _
  rw [sumVals_jset_add, h]
  rfl

theorem upsertDayStat_sum (D : List (String × DayStat)) (d : String)
    (s : Nat) (dk : String)
    (h : sumVals (((jget D dk).getD { totalTime := 0, domains := [] }).domains) =
      ((jget D dk).getD { totalTime := 0, domains := [] }).totalTime) :
    sumVals (upsertDayStat D d s dk).domains =
      (upsertDayStat D d s dk).totalTime := by
  show sumVals (jset _ d _) = _
  rw [sumVals_jset_add, h]
  rfl

theorem domainInv_record {st : Store} (hinv : domainInv st) (d : String)
    (s : Nat) (dk : String) (now : Nat) :
    domainInv (recordSession st d s dk now) := by
  intro p hp
  rcases mem_jset hp with hpe | hpm
  · rw [hpe]
    apply upsertDomainStat_sum
    cases h : jget st.activityData d with
    | none => simp [sumVals]
    | some ds =>
      simpa using hinv (d, ds) (jget_mem h)
  · exact hinv p hpm

theorem dayInv_record {st : Store} (hinv : dayInv st) (d : String)
    (s : Nat) (dk : String) (now : Nat) :
    dayInv (recordSession st d s dk now) := by
  intro p hp
  rcases mem_jset hp with hpe | hpm
  · rw [hpe]
    apply upsertDayStat_sum
    cases h : jget st.dailyData dk with
    | none => simp [sumVals]
    | some dd =>
      simpa using hinv (dk, dd) (jget_mem h)
  · exact hinv p hpm

theorem breakdownAt_record_other {st : Store} {d : String} {dom : String}
    (hne : dom ≠ d) (s : Nat) (dk : String) (now : Nat) (date : String) :
    breakdownAt (recordSession st d s dk now) dom date =
      breakdownAt st dom date := by
  simp [breakdownAt, recordSession, jget_jset_ne _ _ _ _ hne]

theorem breakdownAt_record_self_other_date {st : Store} {d : String}
    {date : String} (s : Nat) {dk : String} (hne : date ≠ dk) (now : Nat) :
    breakdownAt (recordSession st d s dk now) d date = breakdownAt st d date := by
  simp only [breakdownAt, recordSession, jget_jset_self, Option.bind_some]
  cases h : jget st.activityData d with
  | none =>
    simp [upsertDomainStat, h, jget_jset_ne _ _ _ _ hne, jget]
    exact fun hh => hne hh.symm
  | some ds => simp [upsertDomainStat, h, jget_jset_ne _ _ _ _ hne]

theorem breakdownAt_record_self (st : Store) (d : String) (s : Nat)
    (dk : String) (now : Nat) :
    breakdownAt (recordSession st d s dk now) d dk =
      some ((breakdownAt st d dk).getD 0 + s) := by
  simp only [breakdownAt, recordSession, jget_jset_self, Option.bind_some]
  cases h : jget st.activityData d with
  | none => simp [upsertDomainStat, h, jget_jset_self, jget]
  | some ds => simp [upsertDomainStat, h, jget_jset_self]

theorem daySecondsAt_record_other_date {st : Store} {dk date : String}
    (hne : date ≠ dk) (d : String) (s : Nat) (now : Nat) (dom : String) :
    daySecondsAt (recordSession st d s dk now) dom date =
      daySecondsAt st dom date := by
  simp [daySecondsAt, recordSession, jget_jset_ne _ _ _ _ hne]

theorem daySecondsAt_record_dk_other_dom {st : Store} {d dom : String}
    (hne : dom ≠ d) (s : Nat) (dk : String) (now : Nat) :
    daySecondsAt (recordSession st d s dk now) dom dk =
      daySecondsAt st dom dk := by
  simp only [daySecondsAt, recordSession, jget_jset_self, Option.bind_some]
  cases h : jget st.dailyData dk with
  | none =>
    simp [upsertDayStat, h, jget_jset_ne _ _ _ _ hne, jget]
    exact fun hh => hne hh.symm
  | some dd => simp [upsertDayStat, h, jget_jset_ne _ _ _ _ hne]

theorem daySecondsAt_record_self (st : Store) (d : String) (s : Nat)
    (dk : String) (now : Nat) :
    daySecondsAt (recordSession st d s dk now) d dk =
      some ((daySecondsAt st d dk).getD 0 + s) := by
  simp only [daySecondsAt, recordSession, jget_jset_self, Option.bind_some]
  cases h : jget st.dailyData dk with
  | none => simp [upsertDayStat, h, jget_jset_self, jget]
  | some dd => simp [upsertDayStat, h, jget_jset_self]

theorem crossInv_record {st : Store} (hinv : crossInv st) (d : String)
    (s : Nat) (dk : String) (now : Nat) :
    crossInv (recordSession st d s dk now) := by
  intro dom date
  by_cases hdom : dom = d
  · subst hdom
    by_cases hdate : date = dk
    · subst hdate
      rw [breakdownAt_record_self, daySecondsAt_record_self, hinv dom date]
    · rw [breakdownAt_record_self_other_date s hdate now,
        daySecondsAt_record_other_date hdate dom s now, hinv dom date]
  · by_cases hdate : date = dk
    · subst hdate
      rw [breakdownAt_record_other hdom s date now,
        daySecondsAt_record_dk_other_dom hdom s date now, hinv dom date]
    · rw [breakdownAt_record_other hdom s dk now,
        daySecondsAt_record_other_date hdate d s now, hinv dom date]

theorem cleanup_activity (st : Store) (now : Nat) (ck : String) :
    (cleanupOldData st now ck).activityData = st.activityData := by
  by_cases hgate : now - st.lastCleanup < 24 * 60 * 60 * 1000
  · simp [cleanupOldData, hgate]
  · by_cases hpos : 0 < (st.dailyData.filter fun p => jsLT p.1 ck).length
    · simp [cleanupOldData, hgate, hpos]
    · simp [cleanupOldData, hgate, hpos]

theorem cleanup_daily_cases (st : Store) (now : Nat) (ck : String) :
    (cleanupOldData st now ck).dailyData = st.dailyData ∨
    (cleanupOldData st now ck).dailyData =
      st.dailyData.filter fun p => !jsLT p.1 ck := by
  by_cases hgate : now - st.lastCleanup < 24 * 60 * 60 * 1000
  · exact Or.inl (by simp [cleanupOldData, hgate])
  · by_cases hpos : 0 < (st.dailyData.filter fun p => jsLT p.1 ck).length
    · exact Or.inr (by simp [cleanupOldData, hgate, hpos])
    · exact Or.inl (by simp [cleanupOldData, hgate, hpos])

theorem domainInv_cleanup {st : Store} (hinv : domainInv st) (now : Nat)
    (ck : String) : domainInv (cleanupOldData st now ck) := by
  intro p hp
  rw [cleanup_activity] at hp
  exact hinv p hp

theorem dayInv_cleanup {st : Store} (hinv : dayInv st) (now : Nat)
    (ck : String) : dayInv (cleanupOldData st now ck) := by
  intro p hp
  rcases cleanup_daily_cases st now ck with h | h
  · rw [h] at hp
    exact hinv p hp
  · rw [h] at hp
    exact hinv p (List.mem_filter.mp hp).1

theorem crossInvGe_cleanup {st : Store} (hinv : crossInv st) (now : Nat)
    (ck : String) : crossInvGe ck (cleanupOldData st now ck) := by
  intro dom date hge
  have hb : breakdownAt (cleanupOldData st now ck) dom date =
      breakdownAt st dom date := by
    simp [breakdownAt, cleanup_activity]
  have hd : daySecondsAt (cleanupOldData st now ck) dom date =
      daySecondsAt st dom date := by
    rcases cleanup_daily_cases st now ck with h | h
    · simp [daySecondsAt, h]
    · simp only [daySecondsAt, h]
      rw [jget_filter_keep st.dailyData (fun s => !jsLT s ck) date (by simp [hge])]
  rw [hb, hd]
  exact hinv dom date

/-- C5 (counterexample): record a 5-second session for `a.com` dated
`2020-01-01`, then run the retention sweep with a later cutoff.  The sweep
removes the `dailyData` day but keeps the domain's `dailyBreakdown`, so the
cross-map equality fails: the pair `(a.com, 2020-01-01)` is present in
`dailyBreakdown` with value 5 but absent from `dailyData`. -/
theorem c5_counterexample :
    breakdownAt
      (cleanupOldData (recordSession { activityData := [], dailyData := [], lastCleanup := 0 }
        "a.com" 5 "2020-01-01" 1000) 1000000000000 "2025-01-01")
      "a.com" "2020-01-01" = some 5 ∧
    daySecondsAt
      (cleanupOldData (recordSession { activityData := [], dailyData := [], lastCleanup := 0 }
        "a.com" 5 "2020-01-01" 1000) 1000000000000 "2025-01-01")
      "a.com" "2020-01-01" = none ∧
    ¬ crossInv
      (cleanupOldData (recordSession { activityData := [], dailyData := [], lastCleanup := 0 }
        "a.com" 5 "2020-01-01" 1000) 1000000000000 "2025-01-01") := by
  refine ⟨by decide, by decide, fun h => ?_⟩
  have := h "a.com" "2020-01-01"
  revert this
  decide

/-- C5 (amended): from any store satisfying the three invariants, a session
flush (the aggregator step) preserves all three; the retention sweep
preserves the two per-map sum invariants and preserves the cross-map
equality for every date key not below the cutoff — but not necessarily for
swept dates, whose `dailyBreakdown` entries survive while their `dailyData`
day is deleted (see the counterexample). -/
theorem c5_invariants (st : Store) (hdom : domainInv st) (hday : dayInv st)
    (hcross : crossInv st) (d : String) (s : Nat) (dk : String)
    (now now' : Nat) (ck : String) :
    (domainInv (recordSession st d s dk now) ∧
      dayInv (recordSession st d s dk now) ∧
      crossInv (recordSession st d s dk now)) ∧
    (domainInv (cleanupOldData st now' ck) ∧
      dayInv (cleanupOldData st now' ck) ∧
      crossInvGe ck (cleanupOldData st now' ck)) :=
  ⟨⟨domainInv_record hdom d s dk now, dayInv_record hday d s dk now,
      crossInv_record hcross d s dk now⟩,
    ⟨domainInv_cleanup hdom now' ck, dayInv_cleanup hday now' ck,
      crossInvGe_cleanup hcross now' ck⟩⟩

/-- Witness for `c5_invariants` at the empty initial store. -/
theorem c5_invariants_witness :
    crossInv (recordSession { activityData := [], dailyData := [], lastCleanup := 0 }
      "a.com" 5 "2020-01-01" 1000) ∧
    crossInvGe "2025-01-01"
      (cleanupOldData { activityData := [], dailyData := [], lastCleanup := 0 }
        1000000000000 "2025-01-01") := by
  have h := c5_invariants { activityData := [], dailyData := [], lastCleanup := 0 }
    (fun p hp => absurd hp (List.not_mem_nil p))
    (fun p hp => absurd hp (List.not_mem_nil p))
    (fun _ _ => rfl)
    "a.com" 5 "2020-01-01" 1000 1000000000000 "2025-01-01"
  exact ⟨h.1.2.2, h.2.2.2⟩

/-- C6 (confirmed): recording a session upserts `activityData[domain]`
(created zeroed when absent) by adding `seconds` to `totalTime`, adding
exactly 1 to `visits`, setting `lastVisit := now`, and adding `seconds` to
`dailyBreakdown[dateKey]` (created at 0 when absent); it symmetrically
upserts `dailyData[dateKey]`; every other entry of both maps, every other
breakdown date and day-domain bucket, and `lastCleanup` are unchanged. -/
theorem c6_record_upsert (st : Store) (domain : String) (s : Nat) (dk : String)
    (now : Nat) (_hs : 0 < s) :
    ∃ ds' dd',
      jget (recordSession st domain s dk now).activityData domain = some ds' ∧
      ds'.totalTime = ((jget st.activityData domain).getD
        { totalTime := 0, visits := 0, lastVisit := now,
          dailyBreakdown := [] }).totalTime + s ∧
      ds'.visits = ((jget st.activityData domain).getD
        { totalTime := 0, visits := 0, lastVisit := now,
          dailyBreakdown := [] }).visits + 1 ∧
      ds'.lastVisit = now ∧
      jget ds'.dailyBreakdown dk =
        some ((jget ((jget st.activityData domain).getD
          { totalTime := 0, visits := 0, lastVisit := now,
            dailyBreakdown := [] }).dailyBreakdown dk).getD 0 + s) ∧
      (∀ k, k ≠ dk → jget ds'.dailyBreakdown k =
        jget ((jget st.activityData domain).getD
          { totalTime := 0, visits := 0, lastVisit := now,
            dailyBreakdown := [] }).dailyBreakdown k) ∧
      (∀ d, d ≠ domain →
        jget (recordSession st domain s dk now).activityData d =
          jget st.activityData d) ∧
      jget (recordSession st domain s dk now).dailyData dk = some dd' ∧
      dd'.totalTime = ((jget st.dailyData dk).getD
        { totalTime := 0, domains := [] }).totalTime + s ∧
      jget dd'.domains domain =
        some ((jget ((jget st.dailyData dk).getD
          { totalTime := 0, domains := [] }).domains domain).getD 0 + s) ∧
      (∀ d, d ≠ domain → jget dd'.domains d =
        jget ((jget st.dailyData dk).getD
          { totalTime := 0, domains := [] }).domains d) ∧
      (∀ k, k ≠ dk →
        jget (recordSession st domain s dk now).dailyData k =
          jget st.dailyData k) ∧
      (recordSession st domain s dk now).lastCleanup = st.lastCleanup := by
  refine ⟨upsertDomainStat st.activityData domain s dk now,
    upsertDayStat st.dailyData domain s dk,
    jget_jset_self _ _ _, rfl, rfl, rfl,
    jget_jset_self _ _ _,
    fun k hk => jget_jset_ne _ _ _ _ hk,
    fun d hd => jget_jset_ne _ _ _ _ hd,
    jget_jset_self _ _ _, rfl,
    jget_jset_self _ _ _,
    fun d hd => jget_jset_ne _ _ _ _ hd,
    fun k hk => jget_jset_ne _ _ _ _ hk,
    rfl⟩

/-- Witness for `c6_record_upsert`: a concrete 5-second record into the
empty store leaves `lastCleanup` untouched. -/
theorem c6_record_upsert_witness :
    (recordSession { activityData := [], dailyData := [], lastCleanup := 0 }
      "a.com" 5 "2020-01-01" 1000).lastCleanup = 0 := by
  obtain ⟨ds', dd', h⟩ := c6_record_upsert
    { activityData := [], dailyData := [], lastCleanup := 0 }
    "a.com" 5 "2020-01-01" 1000 (by decide)
  exact h.2.2.2.2.2.2.2.2.2.2.2.2

/-! ## Accumulated lifetime totals (C7) -/

theorem lifetimeSeconds_record (st : Store) (d : String) (s : Nat)
    (dk : String) (now : Nat) :
    lifetimeSeconds (recordSession st d s dk now) d = lifetimeSeconds st d + s := by
  cases h : jget st.activityData d with
  | none => simp [lifetimeSeconds, recordSession, jget_jset_self, upsertDomainStat, h]
  | some ds => simp [lifetimeSeconds, recordSession, jget_jset_self, upsertDomainStat, h]

/-- C7 (confirmed): over any finite alternating sequence of opens and
closes of one domain (window focused, realistic nonzero open timestamps),
the domain's lifetime `totalTime` grows by exactly the sum of the
whole-second durations of the interleaved intervals, where an interval of
less than one whole second contributes nothing. -/
theorem c7_total_time (tabId : Nat) (domain : String) (st : Store)
    (l : List (Nat × Nat × String)) (hdom : domain ≠ "")
    (hopen : ∀ p ∈ l, p.1 ≠ 0) :
    lifetimeSeconds (runOpensCloses tabId domain st l) domain =
      lifetimeSeconds st domain + (l.map intervalContribution).sum := by
  induction l generalizing st with
  | nil => simp [runOpensCloses]
  | cons p rest ih =>
    obtain ⟨openT, closeT, dk⟩ := p
    have hopen0 : openT ≠ 0 := hopen _ (List.mem_cons_self _ _)
    have hrest : ∀ q ∈ rest, q.1 ≠ 0 := fun q hq => hopen q (List.mem_cons_of_mem _ hq)
    show lifetimeSeconds (runOpensCloses tabId domain
      (saveCurrentSession (startTracking
        { currentTabId := none, currentDomain := none, sessionStartTime := none,
          isWindowFocused := true } tabId domain openT) st closeT dk) rest) domain = _
    rw [show startTracking
        { currentTabId := none, currentDomain := none, sessionStartTime := none,
          isWindowFocused := true } tabId domain openT =
        { currentTabId := some tabId, currentDomain := some domain,
          sessionStartTime := some openT, isWindowFocused := true } from rfl]
    rw [ih _ hrest]
    by_cases hshort : (closeT - openT) / 1000 < 1
    · rw [save_noop_of_short _ _ _ _ (by simpa using hshort)]
      simp [intervalContribution, hshort]
    · rw [save_records_eq _ _ _ _ (by simp [truthyStr, hdom])
        (by simp [truthyNat, hopen0]) rfl (by simp; omega)]
      simp only [Option.getD_some]
      rw [lifetimeSeconds_record]
      simp [intervalContribution, hshort]
      omega

/-- Witness for `c7_total_time`: one 1.5-second interval and one 400 ms
interval leave exactly one recorded second. -/
theorem c7_total_time_witness :
    lifetimeSeconds
      (runOpensCloses 1 "a.com" { activityData := [], dailyData := [], lastCleanup := 0 }
        [(1000, 2500, "2020-01-01"), (3000, 3400, "2020-01-01")]) "a.com" = 1 := by
  have h := c7_total_time 1 "a.com"
    { activityData := [], dailyData := [], lastCleanup := 0 }
    [(1000, 2500, "2020-01-01"), (3000, 3400, "2020-01-01")]
    (by decide) (by decide)
  simpa using h

/-- C8 (counterexample): `chrome://newtab/` is a non-http URL, yet the URL
parser resolves hostname `newtab`, and a tab activation with that URL while
focused starts a tracking session — so non-http URLs are not all skipped. -/
theorem c8_counterexample :
    getDomainFromUrl "chrome://newtab/" = some "newtab" ∧
    (step (initialWorld 0)
      (.tabActivated (some (1, "chrome://newtab/")) 5 "1970-01-01")).session.currentDomain =
      some "newtab" ∧
    (step (initialWorld 0)
      (.tabActivated (some (1, "chrome://newtab/")) 5 "1970-01-01")).session.sessionStartTime =
      some 5 := by
  decide

/-- C8 (amended): a URL the parser rejects (malformed) yields no domain and
the tab activation that saw it ends with no session, silently; and closing a
non-session (falsy domain) never mutates the persisted store.  (Non-http
URLs that *parse* with a nonempty hostname, such as `chrome://newtab/`, do
yield a domain and do produce a session — see the counterexample.) -/
theorem c8_no_domain_no_session (url : String)
    (h : getDomainFromUrl url = none) :
    (∀ w tabId now dk,
      (step w (.tabActivated (some (tabId, url)) now dk)).session.currentDomain = none ∧
      (step w (.tabActivated (some (tabId, url)) now dk)).session.sessionStartTime = none) ∧
    (∀ s st now dk, truthyStr s.currentDomain = false →
      saveCurrentSession s st now dk = st) := by
  constructor
  · intro w tabId now dk
    have hcond : (truthyStr (getDomainFromUrl url) && w.session.isWindowFocused) = false := by
      simp [h, truthyStr]
    constructor <;> simp [step, hcond, clearTracking]
  · exact fun s st now dk hs => save_noop_of_domain s st now dk hs

/-- Witness for `c8_no_domain_no_session`: the unparsable URL `not a url`
produces no session, and a flush with no current domain is a store no-op. -/
theorem c8_no_domain_no_session_witness :
    (step (initialWorld 0)
      (.tabActivated (some (1, "not a url")) 5 "1970-01-01")).session.currentDomain = none ∧
    saveCurrentSession
      { currentTabId := none, currentDomain := none
        sessionStartTime := some 7, isWindowFocused := true }
      { activityData := [], dailyData := [], lastCleanup := 0 } 99 "1970-01-01" =
      { activityData := [], dailyData := [], lastCleanup := 0 } := by
  refine ⟨((c8_no_domain_no_session "not a url" (by decide)).1
      (initialWorld 0) 1 5 "1970-01-01").1,
    (c8_no_domain_no_session "not a url" (by decide)).2 _ _ 99 "1970-01-01" (by decide)⟩

/-- C10 (confirmed): the retention sweep never touches `activityData` —
every `DomainStat`, including `dailyBreakdown` entries older than 90 days,
survives; its only effects are dropping `dailyData` entries (the result is
a sublist of the original) and possibly setting `lastCleanup` to `now`. -/
theorem c10_cleanup_frame (st : Store) (now : Nat) (ck : String) :
    (cleanupOldData st now ck).activityData = st.activityData ∧
    (cleanupOldData st now ck).dailyData.Sublist st.dailyData ∧
    ((cleanupOldData st now ck).lastCleanup = st.lastCleanup ∨
      (cleanupOldData st now ck).lastCleanup = now) := by
  refine ⟨cleanup_activity st now ck, ?_, ?_⟩
  · rcases cleanup_daily_cases st now ck with h | h
    · rw [h]
    · rw [h]
      exact List.filter_sublist _
  · by_cases hgate : now - st.lastCleanup < 24 * 60 * 60 * 1000
    · exact Or.inl (by simp [cleanupOldData, hgate])
    · by_cases hpos : 0 < (st.dailyData.filter fun p => jsLT p.1 ck).length
      · exact Or.inr (by simp [cleanupOldData, hgate, hpos])
      · exact Or.inl (by simp [cleanupOldData, hgate, hpos])

/-! ## Reporter lemmas (C9) -/

instance : IsTotal (String × RangeStat) byTimeDesc :=
  ⟨fun a b => Nat.le_total b.2.time a.2.time⟩

instance : IsTrans (String × RangeStat) byTimeDesc :=
  ⟨fun _ _ _ hab hbc => Nat.le_trans hbc hab⟩

theorem addDayDomain_visits {A : List (String × DomainStat)} {now : Nat}
    {acc : List (String × RangeStat) × Nat}
    (h : ∀ p ∈ acc.1, p.2.visits = 0) (domain : String) (t : Nat) :
    ∀ p ∈ (addDayDomain A now acc domain t).1, p.2.visits = 0 := by
  intro p hp
  rcases mem_jset hp with hpe | hpm
  · rw [hpe]
    cases hc : jget acc.1 domain with
    | none => simp [addDayDomain, hc]
    | some cur =>
      simpa [addDayDomain, hc] using h (domain, cur) (jget_mem hc)
  · exact h p hpm

theorem foldl_addDayDomain_visits {A : List (String × DomainStat)} {now : Nat}
    (ds : List (String × Nat)) (acc : List (String × RangeStat) × Nat)
    (h : ∀ p ∈ acc.1, p.2.visits = 0) :
    ∀ p ∈ (ds.foldl (fun a q => addDayDomain A now a q.1 q.2) acc).1,
      p.2.visits = 0 := by
  induction ds generalizing acc with
  | nil => exact h
  | cons q rest ih => exact ih _ (addDayDomain_visits h q.1 q.2)

theorem collectRange_visits {A : List (String × DomainStat)}
    {sD tD : String} {now : Nat} (D : List (String × DayStat))
    (acc : List (String × RangeStat) × Nat)
    (h : ∀ p ∈ acc.1, p.2.visits = 0) :
    ∀ p ∈ (collectRange A sD tD now D acc).1, p.2.visits = 0 := by
  induction D generalizing acc with
  | nil => exact h
  | cons d rest ih =>
    obtain ⟨dateKey, dayData⟩ := d
    simp only [collectRange]
    by_cases hc : (jsLE sD dateKey && jsLE dateKey tD) = true
    · rw [if_pos hc]
      exact ih _ (foldl_addDayDomain_visits dayData.domains acc h)
    · rw [if_neg hc]
      exact ih _ h

theorem keys_nodup_foldl_addDayDomain {A : List (String × DomainStat)} {now : Nat}
    (ds : List (String × Nat)) (acc : List (String × RangeStat) × Nat)
    (h : (keys acc.1).Nodup) :
    (keys ((ds.foldl (fun a q => addDayDomain A now a q.1 q.2) acc)).1).Nodup := by
  induction ds generalizing acc with
  | nil => exact h
  | cons q rest ih => exact ih _ (keys_jset_nodup _ _ h)

theorem keys_nodup_collectRange {A : List (String × DomainStat)}
    {sD tD : String} {now : Nat} (D : List (String × DayStat))
    (acc : List (String × RangeStat) × Nat) (h : (keys acc.1).Nodup) :
    (keys (collectRange A sD tD now D acc).1).Nodup := by
  induction D generalizing acc with
  | nil => exact h
  | cons d rest ih =>
    obtain ⟨dateKey, dayData⟩ := d
    simp only [collectRange]
    by_cases hc : (jsLE sD dateKey && jsLE dateKey tD) = true
    · rw [if_pos hc]
      exact ih _ (keys_nodup_foldl_addDayDomain dayData.domains acc h)
    · rw [if_neg hc]
      exact ih _ h

theorem keys_nodup_assignVisits (sD tD : String) (A : List (String × DomainStat))
    (m : List (String × RangeStat)) (tv : Nat) (h : (keys m).Nodup) :
    (keys (assignVisits sD tD A (m, tv)).1).Nodup := by
  induction A generalizing m tv with
  | nil => exact h
  | cons a rest ih =>
    obtain ⟨aDom, aDS⟩ := a
    simp only [assignVisits]
    cases hm : jget m aDom with
    | some cur => exact ih _ _ (keys_jset_nodup _ _ h)
    | none => exact ih _ _ h

theorem assignVisits_jget_none (sD tD : String) (A : List (String × DomainStat))
    (m : List (String × RangeStat)) (tv : Nat) {dom : String}
    (hA : jget A dom = none) :
    jget (assignVisits sD tD A (m, tv)).1 dom = jget m dom := by
  induction A generalizing m tv with
  | nil => rfl
  | cons a rest ih =>
    obtain ⟨aDom, aDS⟩ := a
    have hne : ¬ aDom = dom := by
      intro hh
      simp [jget, hh] at hA
    have hA' : jget rest dom = none := by
      simpa [jget, hne] using hA
    simp only [assignVisits]
    cases hm : jget m aDom with
    | some cur =>
      rw [ih _ _ hA']
      exact jget_jset_ne _ _ _ _ fun hh => hne hh.symm
    | none => exact ih _ _ hA'

theorem assignVisits_jget_some (sD tD : String) (A : List (String × DomainStat))
    (hA : (keys A).Nodup) (m : List (String × RangeStat)) (tv : Nat)
    {dom : String} {ds : DomainStat} (hds : jget A dom = some ds) :
    jget (assignVisits sD tD A (m, tv)).1 dom =
      (jget m dom).map fun cur => { cur with visits := visitsInRange sD tD ds } := by
  induction A generalizing m tv with
  | nil => simp [jget] at hds
  | cons a rest ih =>
    obtain ⟨aDom, aDS⟩ := a
    have hpair := List.nodup_cons.mp (show (aDom :: keys rest).Nodup from hA)
    by_cases hdom : aDom = dom
    · subst hdom
      have hds' : aDS = ds := by simpa [jget] using hds
      subst hds'
      have hrest : jget rest aDom = none := jget_eq_none_of_not_mem_keys hpair.1
      simp only [assignVisits]
      cases hm : jget m aDom with
      | some cur =>
        rw [assignVisits_jget_none sD tD rest _ _ hrest, jget_jset_self]
        rfl
      | none =>
        rw [assignVisits_jget_none sD tD rest _ _ hrest, hm]
        rfl
    · have hds' : jget rest dom = some ds := by
        simpa [jget, hdom] using hds
      simp only [assignVisits]
      cases hm : jget m aDom with
      | some cur =>
        rw [ih hpair.2 _ _ hds', jget_jset_ne _ _ _ _ fun hh => hdom hh.symm]
      | none => exact ih hpair.2 _ _ hds'

/-- C9 (confirmed): for any persisted store (with the usual unique JS object
keys) and range `[startDate, today]`, the reporter's `topSites` list is
sorted by in-range time descending, holds at most 10 entries, these are top
entries (no domain left out of the list has more in-range time than a listed
one), and each listed domain's visit count is exactly the spec's estimate:
the sum over its in-range positive `dailyBreakdown` dates of the lifetime
`visits` scaled by the date's share of the lifetime `totalTime`, rounded up
per date bucket. -/
theorem c9_reporter (A : List (String × DomainStat)) (D : List (String × DayStat))
    (startDate today : String) (now : Nat) (hA : (keys A).Nodup) :
    (processData A D startDate today now).topSites.Sorted byTimeDesc ∧
    (processData A D startDate today now).topSites.length ≤ 10 ∧
    (∀ p ∈ (processData A D startDate today now).topSites,
      p.2.visits = estVisits A startDate today p.1) ∧
    (∀ q ∈ (sortByTimeDesc (assignVisits startDate today A
        ((collectRange A startDate today now D ([], 0)).1, 0)).1).drop 10,
      ∀ p ∈ (processData A D startDate today now).topSites,
        q.2.time ≤ p.2.time) := by
  have hsorted := List.sorted_insertionSort byTimeDesc
    (assignVisits startDate today A
      ((collectRange A startDate today now D ([], 0)).1, 0)).1
  have htop : (processData A D startDate today now).topSites =
      (sortByTimeDesc (assignVisits startDate today A
        ((collectRange A startDate today now D ([], 0)).1, 0)).1).take 10 := rfl
  refine ⟨?_, ?_, ?_, ?_⟩
  · rw [htop]
    exact hsorted.sublist (List.take_sublist _ _)
  · rw [htop]
    exact List.length_take_le _ _
  · intro p hp
    rw [htop] at hp
    have hmem : p ∈ (assignVisits startDate today A
        ((collectRange A startDate today now D ([], 0)).1, 0)).1 :=
      (List.perm_insertionSort byTimeDesc _).subset (List.take_subset _ _ hp)
    have hnodup : (keys (assignVisits startDate today A
        ((collectRange A startDate today now D ([], 0)).1, 0)).1).Nodup :=
      keys_nodup_assignVisits _ _ _ _ _
        (keys_nodup_collectRange D ([], 0) List.nodup_nil)
    have hjget := jget_of_mem_nodup hnodup hmem
    cases hds : jget A p.1 with
    | some ds =>
      rw [assignVisits_jget_some startDate today A hA _ _ hds] at hjget
      cases hm : jget (collectRange A startDate today now D ([], 0)).1 p.1 with
      | none =>
        rw [hm] at hjget
        simp at hjget
      | some cur =>
        rw [hm] at hjget
        have hp2 : p.2 = { cur with visits := visitsInRange startDate today ds } := by
          simpa using hjget.symm
        rw [hp2]
        simp [estVisits, hds]
    | none =>
      rw [assignVisits_jget_none startDate today A _ _ hds] at hjget
      have hmem2 : (p.1, p.2) ∈ (collectRange A startDate today now D ([], 0)).1 :=
        jget_mem hjget
      have hz := collectRange_visits D ([], 0)
        (fun q hq => absurd hq (List.not_mem_nil q)) _ hmem2
      rw [show ((p.1, p.2) : String × RangeStat).2 = p.2 from rfl] at hz
      rw [hz]
      simp [estVisits, hds, visitsInRange]
  · intro q hq p hp
    rw [htop] at hp
    exact hsorted.rel_of_mem_take_of_mem_drop hp hq

/-- Witness for `c9_reporter` at a one-domain, one-day store. -/
theorem c9_reporter_witness :
    (processData
      [("a.com", { totalTime := 10, visits := 3, lastVisit := 500
                   dailyBreakdown := [("2025-01-01", 10)] })]
      [("2025-01-01", { totalTime := 10, domains := [("a.com", 10)] })]
      "2025-01-01" "2025-01-02" 0).topSites.Sorted byTimeDesc ∧
    (processData
      [("a.com", { totalTime := 10, visits := 3, lastVisit := 500
                   dailyBreakdown := [("2025-01-01", 10)] })]
      [("2025-01-01", { totalTime := 10, domains := [("a.com", 10)] })]
      "2025-01-01" "2025-01-02" 0).topSites.length ≤ 10 :=
  ⟨(c9_reporter
      [("a.com", { totalTime := 10, visits := 3, lastVisit := 500
                   dailyBreakdown := [("2025-01-01", 10)] })]
      [("2025-01-01", { totalTime := 10, domains := [("a.com", 10)] })]
      "2025-01-01" "2025-01-02" 0 (by decide)).1,
    (c9_reporter
      [("a.com", { totalTime := 10, visits := 3, lastVisit := 500
                   dailyBreakdown := [("2025-01-01", 10)] })]
      [("2025-01-01", { totalTime := 10, domains := [("a.com", 10)] })]
      "2025-01-01" "2025-01-02" 0 (by decide)).2.1⟩

end ScreenTime
